import Mathlib

/-!
Shallow embedding of src/PCRE2/PCREReplaceTextBuilder.cpp (Sigil).

Text is modelled the way the source iterates it: as a list of UTF-16 code
units (`QStr = List Nat`).  Library functions of Qt that the source calls
(QChar::isDigit, QChar::digitValue, QString::toInt, QString::toUInt,
QString::fromUcs4, case mapping) are modelled on the fragment the component
exercises: ASCII digits and ASCII case mapping, base-10 / base-16 parsing,
UTF-16 encoding of a scalar value.

The mutable builder object is embedded as explicit state passing: `BState`
holds the member variables and the local scan variables of
`BuildReplacementText`, `step` is one iteration of its character loop,
`scanList` is the loop, and `BuildReplacementText` is the whole member
function (returning the success flag and the produced text).
-/

/-- Strings as the source iterates them: lists of UTF-16 code-unit values. -/
abbrev QStr := List Nat

/-- The CaseChange enum of PCREReplaceTextBuilder.h. -/
inductive CaseChange where
  | None
  | LowerNext
  | Lower
  | UpperNext
  | Upper
deriving DecidableEq

/-- The scan state of one BuildReplacementText call: the member variables
(m_caseChangeState, m_finalText) together with the locals of the character
loop (in_control, control_char, backref_bracket_start_char, backref_name,
invalid_control, control_x_hex, control_x6_hex, in_hex6).  A QChar that can
be null is an `Option Nat`. -/
structure BState where
  in_control : Bool
  control_char : Option Nat
  backref_bracket_start_char : Option Nat
  backref_name : QStr
  invalid_control : QStr
  control_x_hex : QStr
  control_x6_hex : QStr
  in_hex6 : Bool
  caseChangeState : CaseChange
  finalText : QStr
deriving DecidableEq

/-- The is_hex macro of the source: ASCII 0-9, a-f, A-F. -/
def is_hex (a : Nat) : Bool :=
  decide ((48 ≤ a ∧ a ≤ 57) ∨ (97 ≤ a ∧ a ≤ 102) ∨ (65 ≤ a ∧ a ≤ 70))

/-- Value of one hex digit (0 for a non-hex unit; only applied to hex digits). -/
def hexDigitVal (a : Nat) : Nat :=
  if 48 ≤ a ∧ a ≤ 57 then a - 48
  else if 97 ≤ a ∧ a ≤ 102 then a - 87
  else if 65 ≤ a ∧ a ≤ 70 then a - 55
  else 0

/-- Accumulator form of base-16 parsing, for easy induction. -/
def hexFold (v : Nat) : QStr → Nat
  | [] => v
  | a :: s => hexFold (16 * v + hexDigitVal a) s

/-- Models QString::toUInt(NULL, 16) on all-hex-digit strings. -/
def hexToUInt (s : QStr) : Nat := hexFold 0 s

/-- Models QString::fromUcs4 on one Unicode scalar value: the UTF-16
encoding (a surrogate pair above 0xFFFF, one unit otherwise). -/
def fromUcs4 (v : Nat) : QStr :=
  if 65536 ≤ v then
    [55296 + (v - 65536) / 1024, 56320 + (v - 65536) % 1024]
  else [v]

/-- Models QChar::isDigit on the ASCII fragment. -/
def qIsDigit (c : Nat) : Bool := decide (48 ≤ c ∧ c ≤ 57)

/-- Models QChar::digitValue on ASCII digits. -/
def qDigitValue (c : Nat) : Int := (c : Int) - 48

/-- Value of an all-ASCII-digit string in base 10. -/
def digitsVal (s : QStr) : Int :=
  s.foldl (fun v a => 10 * v + ((a : Int) - 48)) 0

/-- Models QString::toInt (base 10): an optional sign followed by decimal
digits gives the signed value, anything else gives 0. -/
def qToInt (s : QStr) : Int :=
  match s with
  | [] => 0
  | c :: rest =>
    if c = 45 then (if rest ≠ [] ∧ rest.all qIsDigit then - digitsVal rest else 0)
    else if c = 43 then (if rest ≠ [] ∧ rest.all qIsDigit then digitsVal rest else 0)
    else if (c :: rest).all qIsDigit then digitsVal (c :: rest) else 0

/-- Modelled from the spec: Utility::Substring (declared in Misc/Utility.h,
whose implementation is not among these source files) extracts the text a
CaptureSpan delimits — per the spec a span is a pair of offsets `(start, end)`
into the source text delimiting one capture group's matched text, so this
returns the code units from index `a` (inclusive) to index `b` (exclusive). -/
def Utility.Substring (a b : Int) (text : QStr) : QStr :=
  (text.drop a.toNat).take (b - a).toNat

/-- Model of the external regex object SPCRE at its interface: the validity
oracle `isValid` and the capture-name-to-number resolver
`getCaptureStringNumber` (spec: maps a name to its numeric index, or an
out-of-range value when unresolved). -/
structure SPCRE where
  isValid : Bool
  getCaptureStringNumber : QStr → Int

/-- PCREReplaceTextBuilder::processTextSegement, with the member variable
m_caseChangeState passed and returned explicitly: rewrites one text segment
according to the active case mode.  Case mapping of Qt is modelled on the
ASCII fragment. -/
def toLowerU (a : Nat) : Nat := if 65 ≤ a ∧ a ≤ 90 then a + 32 else a

/-- ASCII model of Qt upper-casing of one UTF-16 unit. -/
def toUpperU (a : Nat) : Nat := if 97 ≤ a ∧ a ≤ 122 then a - 32 else a

/-- PCREReplaceTextBuilder::processTextSegement: returns the processed
segment and the new m_caseChangeState.  An empty segment returns early,
before the switch on the case state. -/
def processTextSegement (cs : CaseChange) (t : QStr) : QStr × CaseChange :=
  if t.length = 0 then ([], cs)
  else
    match cs with
    | CaseChange.LowerNext => (toLowerU (t.headD 0) :: t.drop 1, CaseChange.None)
    | CaseChange.Lower => (t.map toLowerU, CaseChange.Lower)
    | CaseChange.UpperNext => (toUpperU (t.headD 0) :: t.drop 1, CaseChange.None)
    | CaseChange.Upper => (t.map toUpperU, CaseChange.Upper)
    | CaseChange.None => (t, CaseChange.None)

/-- PCREReplaceTextBuilder::accumulateReplcementText (both overloads; the
QChar one passes a one-unit list): appends the processed segment to
m_finalText. -/
def accumulateReplcementText (st : BState) (t : QStr) : BState :=
  let p := processTextSegement st.caseChangeState t
  { st with finalText := st.finalText ++ p.1, caseChangeState := p.2 }

/-- PCREReplaceTextBuilder::trySetCaseChange: the state is set only when the
current state is CaseChange_None. -/
def trySetCaseChange (st : BState) (s : CaseChange) : BState :=
  if st.caseChangeState = CaseChange.None then { st with caseChangeState := s } else st

/-- PCREReplaceTextBuilder::IsValidHex6: length 2, 4 or 6, all hex digits,
and for length 6 the first character is 0 (unit 48) or the first two are 10
(units 49, 48). -/
def IsValidHex6 (hv : QStr) : Bool :=
  let hl := hv.length
  if hl < 2 ∨ hl = 3 ∨ hl = 5 ∨ hl > 6 then false
  else if ¬ (hv.all is_hex = true) then false
  else if hl = 2 ∨ hl = 4 then true
  else if hv.take 1 = [48] ∨ hv.take 2 = [49, 48] then true
  else false

/-- The ControlStart dispatch of the character loop: the body run when the
current character is the first one after the backslash (control_char still
null).  `st1` already carries `c` appended to invalid_control; the character
is recorded as the control character and classified.  Unit values: 97 a,
98 b, 102 f, 110 n, 114 r, 116 t, 118 v, 92 backslash, 69 E, 103 g, 108 l,
76 L, 117 u, 85 U. -/
def stepControlStart (text : QStr) (cgo : List (Int × Int)) (st1 : BState) (c : Nat) : BState :=
  let st2 := { st1 with control_char := some c }
  if qIsDigit c then
    let backref_number : Int := qDigitValue c
    if 0 ≤ backref_number ∧ backref_number < (cgo.length : Int) then
      { accumulateReplcementText st2
          (Utility.Substring (cgo.getD backref_number.toNat ((0 : Int), (0 : Int))).1
            (cgo.getD backref_number.toNat ((0 : Int), (0 : Int))).2 text) with
        in_control := false }
    else
      { accumulateReplcementText st2 st2.invalid_control with in_control := false }
  else if c = 97 then { accumulateReplcementText st2 [7] with in_control := false }
  else if c = 98 then { accumulateReplcementText st2 [8] with in_control := false }
  else if c = 102 then { accumulateReplcementText st2 [12] with in_control := false }
  else if c = 110 then { accumulateReplcementText st2 [10] with in_control := false }
  else if c = 114 then { accumulateReplcementText st2 [13] with in_control := false }
  else if c = 116 then { accumulateReplcementText st2 [9] with in_control := false }
  else if c = 118 then { accumulateReplcementText st2 [11] with in_control := false }
  else if c = 92 then { accumulateReplcementText st2 [92] with in_control := false }
  else if c = 69 then { st2 with caseChangeState := CaseChange.None, in_control := false }
  else if c = 103 then { st2 with backref_bracket_start_char := none }
  else if c = 108 then { trySetCaseChange st2 CaseChange.LowerNext with in_control := false }
  else if c = 76 then { trySetCaseChange st2 CaseChange.Lower with in_control := false }
  else if c = 117 then { trySetCaseChange st2 CaseChange.UpperNext with in_control := false }
  else if c = 85 then { trySetCaseChange st2 CaseChange.Upper with in_control := false }
  else st2

/-- The backreference-bracket dispatch of the character loop (control
character g, unit 103): bracket opening, name accumulation, and the matching
closer with name resolution and substitution.  123 and 125 are the braces,
60 and 62 are the angle brackets, 48 is the digit 0. -/
def stepNamedBackref (sre : SPCRE) (text : QStr) (cgo : List (Int × Int)) (st1 : BState)
    (c : Nat) : BState :=
  match st1.backref_bracket_start_char with
  | none =>
    if c = 123 ∨ c = 60 then
      { st1 with backref_bracket_start_char := some c, backref_name := [] }
    else
      { accumulateReplcementText st1 st1.invalid_control with in_control := false }
  | some b =>
    if (c = 125 ∧ b = 123) ∨ (c = 62 ∧ b = 60) then
      let n0 : Int := qToInt st1.backref_name
      let backref_number : Int :=
        if n0 = 0 ∧ st1.backref_name ≠ [48] then
          sre.getCaptureStringNumber st1.backref_name
        else n0
      if 0 ≤ backref_number ∧ backref_number < (cgo.length : Int) then
        { accumulateReplcementText st1
            (Utility.Substring (cgo.getD backref_number.toNat ((0 : Int), (0 : Int))).1
              (cgo.getD backref_number.toNat ((0 : Int), (0 : Int))).2 text) with
          in_control := false }
      else
        { accumulateReplcementText st1 st1.invalid_control with in_control := false }
    else
      { st1 with backref_name := st1.backref_name ++ [c] }

/-- The hex-escape dispatch of the character loop (control character x,
unit 120): brace entry, the valid closing brace with decoding, hex-digit
collection in either form, and the abort to literal emission. -/
def stepHex (st1 : BState) (c : Nat) : BState :=
  if c = 123 ∧ st1.in_hex6 = false then
    { st1 with in_hex6 := true }
  else if c = 125 ∧ st1.in_hex6 = true ∧ IsValidHex6 st1.control_x6_hex = true then
    let hl := st1.control_x6_hex.length
    if hl = 2 ∨ hl = 4 then
      { accumulateReplcementText st1 [hexToUInt st1.control_x6_hex] with
        in_control := false, in_hex6 := false, control_x6_hex := [] }
    else
      let extended_plane := st1.control_x6_hex.take 2
      let remainder := st1.control_x6_hex.drop (hl - 4)
      { accumulateReplcementText st1
          (fromUcs4 (65536 * hexToUInt extended_plane + hexToUInt remainder)) with
        in_control := false, in_hex6 := false, control_x6_hex := [] }
  else if is_hex c then
    if st1.in_hex6 then
      { st1 with control_x6_hex := st1.control_x6_hex ++ [c] }
    else
      let st2 := { st1 with control_x_hex := st1.control_x_hex ++ [c] }
      if st2.control_x_hex.length = 2 then
        { accumulateReplcementText st2 [hexToUInt st2.control_x_hex] with in_control := false }
      else st2
  else
    { accumulateReplcementText st1 st1.invalid_control with in_control := false }

/-- One iteration of the character loop of BuildReplacementText, acting on
the scan state for the current character `c` (92 is the backslash): append
`c` to the invalid buffer and dispatch on the control character when in a
control, otherwise start a control on a backslash or forward the literal
character. -/
def step (sre : SPCRE) (text : QStr) (cgo : List (Int × Int)) (st : BState) (c : Nat) : BState :=
  if st.in_control then
    let st1 := { st with invalid_control := st.invalid_control ++ [c] }
    match st1.control_char with
    | none => stepControlStart text cgo st1 c
    | some cc =>
      if cc = 103 then stepNamedBackref sre text cgo st1 c
      else if cc = 120 then stepHex st1 c
      else { accumulateReplcementText st1 st1.invalid_control with in_control := false }
  else
    if c = 92 then
      { st with invalid_control := [92], control_char := none, control_x_hex := [],
                control_x6_hex := [], in_hex6 := false, in_control := true }
    else
      accumulateReplcementText st [c]

/-- The character loop of BuildReplacementText over the replacement pattern. -/
def scanList (sre : SPCRE) (text : QStr) (cgo : List (Int × Int)) : BState → QStr → BState
  | st, [] => st
  | st, c :: cs => scanList sre text cgo (step sre text cgo st c) cs

/-- The state at the top of BuildReplacementText, after resetState and the
local-variable initialisations. -/
def initState : BState :=
  { in_control := false, control_char := none, backref_bracket_start_char := none,
    backref_name := [], invalid_control := [], control_x_hex := [], control_x6_hex := [],
    in_hex6 := false, caseChangeState := CaseChange.None, finalText := [] }

/-- PCREReplaceTextBuilder::BuildReplacementText: validity check, backslash
fast path, character loop, end-of-input flush of an open control, and the
(success, out) result.  On failure the out parameter is never assigned,
modelled as the empty string. -/
def BuildReplacementText (sre : SPCRE) (text : QStr) (cgo : List (Int × Int))
    (replacement_pattern : QStr) : Bool × QStr :=
  if sre.isValid = false then (false, [])
  else if replacement_pattern.contains 92 = false then (true, replacement_pattern)
  else
    let fin := scanList sre text cgo initState replacement_pattern
    let fin2 := if fin.in_control then accumulateReplcementText fin fin.invalid_control else fin
    (true, fin2.finalText)

/-- A regex oracle that is valid and resolves no capture name. -/
def sre0 : SPCRE := ⟨true, fun _ => -1⟩

/-- A valid regex oracle resolving the capture name year (units 121 101 97
114) to group 1. -/
def sreYear : SPCRE := ⟨true, fun nm => if nm = [121, 101, 97, 114] then 1 else -1⟩

/-- The capture index a bracketed backreference name resolves to: the
base-10 parse when it is nonzero or the name is literally 0 (unit 48),
otherwise the external name resolver's answer — exactly the computation at
the matching closer in BuildReplacementText. -/
def resolveBackrefNumber (sre : SPCRE) (name : QStr) : Int :=
  if qToInt name = 0 ∧ name ≠ [48] then sre.getCaptureStringNumber name else qToInt name

section Helpers

@[simp] lemma accumulateReplcementText_in_control (st : BState) (t : QStr) :
    (accumulateReplcementText st t).in_control = st.in_control := rfl

@[simp] lemma accumulateReplcementText_control_char (st : BState) (t : QStr) :
    (accumulateReplcementText st t).control_char = st.control_char := rfl

@[simp] lemma accumulateReplcementText_bracket (st : BState) (t : QStr) :
    (accumulateReplcementText st t).backref_bracket_start_char = st.backref_bracket_start_char := rfl

@[simp] lemma accumulateReplcementText_backref_name (st : BState) (t : QStr) :
    (accumulateReplcementText st t).backref_name = st.backref_name := rfl

@[simp] lemma accumulateReplcementText_invalid_control (st : BState) (t : QStr) :
    (accumulateReplcementText st t).invalid_control = st.invalid_control := rfl

@[simp] lemma accumulateReplcementText_control_x_hex (st : BState) (t : QStr) :
    (accumulateReplcementText st t).control_x_hex = st.control_x_hex := rfl

@[simp] lemma accumulateReplcementText_control_x6_hex (st : BState) (t : QStr) :
    (accumulateReplcementText st t).control_x6_hex = st.control_x6_hex := rfl

@[simp] lemma accumulateReplcementText_in_hex6 (st : BState) (t : QStr) :
    (accumulateReplcementText st t).in_hex6 = st.in_hex6 := rfl

@[simp] lemma accumulateReplcementText_caseChangeState (st : BState) (t : QStr) :
    (accumulateReplcementText st t).caseChangeState = (processTextSegement st.caseChangeState t).2 := rfl

@[simp] lemma accumulateReplcementText_finalText (st : BState) (t : QStr) :
    (accumulateReplcementText st t).finalText = st.finalText ++ (processTextSegement st.caseChangeState t).1 := rfl

@[simp] lemma trySetCaseChange_in_control (st : BState) (s : CaseChange) :
    (trySetCaseChange st s).in_control = st.in_control := by
  unfold trySetCaseChange; split <;> rfl

@[simp] lemma trySetCaseChange_invalid_control (st : BState) (s : CaseChange) :
    (trySetCaseChange st s).invalid_control = st.invalid_control := by
  unfold trySetCaseChange; split <;> rfl

@[simp] lemma trySetCaseChange_finalText (st : BState) (s : CaseChange) :
    (trySetCaseChange st s).finalText = st.finalText := by
  unfold trySetCaseChange; split <;> rfl

@[simp] lemma trySetCaseChange_control_char (st : BState) (s : CaseChange) :
    (trySetCaseChange st s).control_char = st.control_char := by
  unfold trySetCaseChange; split <;> rfl

end Helpers

/-- C2: BuildReplacementText succeeds exactly when the regex validity oracle
accepts the compiled pattern; for every valid regex the result flag is true,
whatever the replacement pattern is. -/
theorem C2_success_iff_valid (sre : SPCRE) (text : QStr) (cgo : List (Int × Int)) (p : QStr) :
    (BuildReplacementText sre text cgo p).1 = sre.isValid := by
  unfold BuildReplacementText
  by_cases h : sre.isValid = false
  · simp [h]
  · simp only [if_neg h]
    have h' : sre.isValid = true := by
      cases hb : sre.isValid
      · exact absurd hb h
      · rfl
    split
    · simp [h']
    · simp [h']

/-- C2 witness at a concrete malformed-escape pattern. -/
theorem C2_success_iff_valid_witness :
    (BuildReplacementText sre0 [] [] [92, 113]).1 = sre0.isValid :=
  C2_success_iff_valid sre0 [] [] [92, 113]

/-- C3: for every replacement pattern with no backslash and every valid
regex, building returns success together with the pattern verbatim. -/
theorem C3_no_escape_identity (sre : SPCRE) (text : QStr) (cgo : List (Int × Int)) (p : QStr)
    (h1 : sre.isValid = true) (h2 : p.contains 92 = false) :
    BuildReplacementText sre text cgo p = (true, p) := by
  unfold BuildReplacementText
  rw [if_neg (by simp [h1]), if_pos h2]

/-- C3 witness on a concrete backslash-free pattern. -/
theorem C3_no_escape_identity_witness :
    BuildReplacementText sre0 [] [] [104, 105] = (true, [104, 105]) :=
  C3_no_escape_identity sre0 [] [] [104, 105] rfl (by decide)

/-- C10: an empty segment handed to the case-transform engine appends
nothing and leaves the case state untouched (the early return happens before
the case switch), so a pending LowerNext/UpperNext survives an empty
backreference substitution and still applies to the next non-empty segment —
as in the end-to-end run where capture 1 is empty and the pattern
lower-next, backref 1, W, X produces wX. -/
theorem C10_empty_segment :
    (∀ cs : CaseChange, processTextSegement cs [] = ([], cs)) ∧
    (∀ st : BState, accumulateReplcementText st [] = st) ∧
    BuildReplacementText sre0 [65, 66] [(0, 2), (1, 1)] [92, 108, 92, 49, 87, 88] =
      (true, [119, 88]) := by
  refine ⟨fun cs => rfl, fun st => ?_, by decide⟩
  cases st
  simp [accumulateReplcementText, processTextSegement]

/-- C10 witness: the empty segment under an active Lower mode. -/
theorem C10_empty_segment_witness :
    processTextSegement CaseChange.Lower [] = ([], CaseChange.Lower) :=
  C10_empty_segment.1 CaseChange.Lower

/-- C8: a case-mode set request is honored only when the current mode is
CaseChange_None and is silently dropped otherwise; a backslash-E control
clears the mode to CaseChange_None unconditionally (and leaves the control);
and the run lower-next, upper-next over the literal WORD produces wORD (the
first directive wins, the second is dropped). -/
theorem C8_first_case_directive_wins :
    (∀ (st : BState) (m : CaseChange),
      (trySetCaseChange st m).caseChangeState =
        if st.caseChangeState = CaseChange.None then m else st.caseChangeState) ∧
    (∀ (sre : SPCRE) (text : QStr) (cgo : List (Int × Int)) (st : BState),
      st.in_control = true → st.control_char = none →
        (step sre text cgo st 69).caseChangeState = CaseChange.None ∧
        (step sre text cgo st 69).in_control = false) ∧
    BuildReplacementText sre0 [] [] [92, 108, 92, 117, 87, 79, 82, 68] =
      (true, [119, 79, 82, 68]) := by
  refine ⟨fun st m => ?_, fun sre text cgo st h1 h2 => ?_, by decide⟩
  · unfold trySetCaseChange
    split <;> simp_all
  · cases st with
    | mk ic cc bb bn inv xh x6 h6 cs ft =>
      simp only at h1 h2
      subst h1; subst h2
      exact ⟨rfl, rfl⟩

/-- C8 witness: a backslash-E step clears an active Upper mode. -/
theorem C8_first_case_directive_wins_witness :
    (step sre0 [] [] ⟨true, none, none, [], [92], [], [], false, CaseChange.Upper, []⟩ 69).caseChangeState
        = CaseChange.None ∧
    (step sre0 [] [] ⟨true, none, none, [], [92], [], [], false, CaseChange.Upper, []⟩ 69).in_control
        = false :=
  C8_first_case_directive_wins.2.1 sre0 [] []
    ⟨true, none, none, [], [92], [], [], false, CaseChange.Upper, []⟩ rfl rfl

/-- C1 counterexample: on the pattern backslash q backslash n, the claim
predicts that after emitting the two units backslash q the scanner is back
in Literal, so the rest would be scanned afresh and backslash n would decode
to a newline; the code instead keeps the scanner in control, absorbs the
second backslash into the invalid buffer and emits the four raw units. -/
theorem C1_counterexample :
    (BuildReplacementText sre0 [] [] [92, 113, 92, 110]).2 = [92, 113, 92, 110] ∧
    ¬ (BuildReplacementText sre0 [] [] [92, 113, 92, 110]).2 =
        [92, 113] ++ (BuildReplacementText sre0 [] [] [92, 110]).2 := by decide

/-- C1 (amended): in ControlStart an unrecognized control character is
recorded and the scanner stays in control, emitting nothing yet; the
two-character invalid sequence is emitted literally only at end of input,
while if another character follows first, that character is absorbed and the
three-character sequence is emitted as one literal segment, after which the
scanner is back in Literal. -/
theorem C1_unrecognized_control :
    (∀ (sre : SPCRE) (text : QStr) (cgo : List (Int × Int)) (st : BState) (c : Nat),
      st.in_control = true → st.control_char = none →
      qIsDigit c = false →
      c ∉ ([97, 98, 102, 110, 114, 116, 118, 92, 69, 103, 108, 76, 117, 85] : List Nat) →
        (step sre text cgo st c).in_control = true ∧
        (step sre text cgo st c).control_char = some c ∧
        (step sre text cgo st c).invalid_control = st.invalid_control ++ [c] ∧
        (step sre text cgo st c).finalText = st.finalText) ∧
    (∀ (sre : SPCRE) (text : QStr) (cgo : List (Int × Int)) (st : BState) (c cc : Nat),
      st.in_control = true → st.control_char = some cc → cc ≠ 103 → cc ≠ 120 →
        (step sre text cgo st c).in_control = false ∧
        (step sre text cgo st c).finalText =
          st.finalText ++
            (processTextSegement st.caseChangeState (st.invalid_control ++ [c])).1) ∧
    BuildReplacementText sre0 [] [] [92, 113] = (true, [92, 113]) := by
  refine ⟨fun sre text cgo st c h1 h2 h3 h4 => ?_, fun sre text cgo st c cc h1 h2 h3 h4 => ?_,
    by decide⟩
  · cases st with
    | mk ic cc bb bn inv xh x6 h6 cs ft =>
      simp only at h1 h2
      subst h1; subst h2
      simp only [List.mem_cons, List.not_mem_nil, or_false, not_or] at h4
      obtain ⟨n97, n98, n102, n110, n114, n116, n118, n92, n69, n103, n108, n76, n117, n85⟩ := h4
      simp [step, stepControlStart, stepNamedBackref, stepHex, h3, n97, n98, n102, n110, n114, n116, n118, n92, n69, n103, n108, n76, n117, n85]
  · cases st with
    | mk ic cc' bb bn inv xh x6 h6 cs ft =>
      simp only at h1 h2
      subst h1; subst h2
      simp [step, stepControlStart, stepNamedBackref, stepHex, h3, h4]

/-- C1 witness: the amended behavior at the concrete unrecognized control q
(unit 113) from a just-opened control state. -/
theorem C1_unrecognized_control_witness :
    (step sre0 [] [] ⟨true, none, none, [], [92], [], [], false, CaseChange.None, []⟩ 113).in_control
        = true ∧
    (step sre0 [] [] ⟨true, none, none, [], [92], [], [], false, CaseChange.None, []⟩ 113).control_char
        = some 113 ∧
    (step sre0 [] [] ⟨true, none, none, [], [92], [], [], false, CaseChange.None, []⟩ 113).invalid_control
        = [92, 113] ∧
    (step sre0 [] [] ⟨true, none, none, [], [92], [], [], false, CaseChange.None, []⟩ 113).finalText
        = [] :=
  C1_unrecognized_control.1 sre0 [] []
    ⟨true, none, none, [], [92], [], [], false, CaseChange.None, []⟩ 113 rfl rfl
    (by decide) (by decide)

/-- C4: from Literal, a backslash followed by one digit d either substitutes
capture span d (when d is below the number of capture spans) or emits the
two raw units literally, in both cases as one segment through the case
engine, and the scanner is back in Literal immediately after the digit; in
the concrete run with two capture spans the pattern backslash 1 2 yields
group 1's text followed by the literal digit 2, so no multi-digit number is
formed. -/
theorem C4_single_digit_backref :
    (∀ (sre : SPCRE) (text : QStr) (cgo : List (Int × Int)) (st : BState) (d : Nat),
      st.in_control = false → 48 ≤ d → d ≤ 57 →
        (step sre text cgo (step sre text cgo st 92) d).in_control = false ∧
        (step sre text cgo (step sre text cgo st 92) d).finalText =
          st.finalText ++
            (processTextSegement st.caseChangeState
              (if d - 48 < cgo.length then
                Utility.Substring (cgo.getD (d - 48) ((0 : Int), (0 : Int))).1
                  (cgo.getD (d - 48) ((0 : Int), (0 : Int))).2 text
              else [92, d])).1 ∧
        (step sre text cgo (step sre text cgo st 92) d).caseChangeState =
          (processTextSegement st.caseChangeState
            (if d - 48 < cgo.length then
              Utility.Substring (cgo.getD (d - 48) ((0 : Int), (0 : Int))).1
                (cgo.getD (d - 48) ((0 : Int), (0 : Int))).2 text
            else [92, d])).2) ∧
    BuildReplacementText sre0 [97, 98] [(0, 2), (0, 1)] [92, 49, 50] = (true, [97, 50]) := by
  refine ⟨fun sre text cgo st d h1 h2 h3 => ?_, by decide⟩
  cases st with
  | mk ic cc bb bn inv xh x6 h6 cs ft =>
    simp only at h1
    subst h1
    have e1 : step sre text cgo ⟨false, cc, bb, bn, inv, xh, x6, h6, cs, ft⟩ 92 =
        ⟨true, none, bb, bn, [92], [], [], false, cs, ft⟩ := rfl
    rw [e1]
    have hd : qIsDigit d = true := by simp [qIsDigit]; omega
    have hv : qDigitValue d = (d : Int) - 48 := rfl
    by_cases hr : d - 48 < cgo.length
    · have hri : 0 ≤ qDigitValue d ∧ qDigitValue d < (cgo.length : Int) := by
        rw [hv]; constructor <;> omega
      have ht : (qDigitValue d).toNat = d - 48 := by rw [hv]; omega
      simp [step, stepControlStart, stepNamedBackref, stepHex, hd, hri, ht, if_pos hr]
    · have hri : ¬ (0 ≤ qDigitValue d ∧ qDigitValue d < (cgo.length : Int)) := by
        rw [hv]; omega
      simp [step, stepControlStart, stepNamedBackref, stepHex, hd, hri, if_neg hr]

/-- C4 witness: the two-step run at digit 5 with one capture span (out of
range, literal emission). -/
theorem C4_single_digit_backref_witness :
    (step sre0 [97] [(0, 1)] (step sre0 [97] [(0, 1)] initState 92) 53).in_control = false ∧
    (step sre0 [97] [(0, 1)] (step sre0 [97] [(0, 1)] initState 92) 53).finalText = [92, 53] ∧
    (step sre0 [97] [(0, 1)] (step sre0 [97] [(0, 1)] initState 92) 53).caseChangeState =
      CaseChange.None :=
  C4_single_digit_backref.1 sre0 [97] [(0, 1)] initState 53 rfl (by decide) (by decide)

/-- C5: at the matching closer of a bracketed backreference (closing brace
for an opening brace, greater-than for less-than) the accumulated name is
parsed in base 10; a nonzero parse, or the literal name 0, gives the index
directly and otherwise the external resolver supplies it; an index inside
the capture-span range substitutes that span's text as one segment while any
other index emits the whole raw accumulated sequence literally; a mismatched
bracket character is an ordinary name character and terminates nothing. -/
theorem C5_bracketed_backref :
    (∀ (sre : SPCRE) (text : QStr) (cgo : List (Int × Int)) (st : BState) (c b : Nat),
      st.in_control = true → st.control_char = some 103 →
      st.backref_bracket_start_char = some b →
      ((c = 125 ∧ b = 123) ∨ (c = 62 ∧ b = 60)) →
        (step sre text cgo st c).in_control = false ∧
        (step sre text cgo st c).finalText =
          st.finalText ++
            (processTextSegement st.caseChangeState
              (if 0 ≤ resolveBackrefNumber sre st.backref_name ∧
                  resolveBackrefNumber sre st.backref_name < (cgo.length : Int) then
                Utility.Substring
                  (cgo.getD (resolveBackrefNumber sre st.backref_name).toNat ((0 : Int), (0 : Int))).1
                  (cgo.getD (resolveBackrefNumber sre st.backref_name).toNat ((0 : Int), (0 : Int))).2
                  text
              else st.invalid_control ++ [c])).1) ∧
    (∀ (sre : SPCRE) (text : QStr) (cgo : List (Int × Int)) (st : BState) (c b : Nat),
      st.in_control = true → st.control_char = some 103 →
      st.backref_bracket_start_char = some b →
      ¬ ((c = 125 ∧ b = 123) ∨ (c = 62 ∧ b = 60)) →
        (step sre text cgo st c).in_control = true ∧
        (step sre text cgo st c).backref_name = st.backref_name ++ [c] ∧
        (step sre text cgo st c).finalText = st.finalText) ∧
    BuildReplacementText sreYear [72, 101, 108, 108, 111, 32, 50, 48, 50, 52] [(0, 5), (6, 10)]
      [92, 103, 123, 121, 101, 97, 114, 125] = (true, [50, 48, 50, 52]) ∧
    BuildReplacementText sre0 [97] [(0, 1)] [92, 103, 60, 53, 62] =
      (true, [92, 103, 60, 53, 62]) := by
  refine ⟨fun sre text cgo st c b h1 h2 h3 h4 => ?_,
    fun sre text cgo st c b h1 h2 h3 h4 => ?_, by decide, by decide⟩
  · cases st with
    | mk ic cc bb bn inv xh x6 h6 cs ft =>
      simp only at h1 h2 h3
      subst h1; subst h2; subst h3
      rcases h4 with ⟨rfl, rfl⟩ | ⟨rfl, rfl⟩ <;>
        · refine ⟨?_, ?_⟩ <;>
          · simp only [step, stepControlStart, stepNamedBackref, stepHex, resolveBackrefNumber]
            repeat' split
            all_goals simp_all
  · cases st with
    | mk ic cc bb bn inv xh x6 h6 cs ft =>
      simp only at h1 h2 h3
      subst h1; subst h2; subst h3
      simp [step, stepControlStart, stepNamedBackref, stepHex, h4]

/-- C5 witness: the closer of the brace form on the accumulated name 5 (unit
53) with one capture span: index 5 parses nonzero, is out of range, and the
raw sequence is emitted. -/
theorem C5_bracketed_backref_witness :
    (step sre0 [97] [(0, 1)]
        ⟨true, some 103, some 123, [53], [92, 103, 123, 53], [], [], false, CaseChange.None, []⟩
        125).in_control = false ∧
    (step sre0 [97] [(0, 1)]
        ⟨true, some 103, some 123, [53], [92, 103, 123, 53], [], [], false, CaseChange.None, []⟩
        125).finalText = [92, 103, 123, 53, 125] :=
  C5_bracketed_backref.1 sre0 [97] [(0, 1)]
    ⟨true, some 103, some 123, [53], [92, 103, 123, 53], [], [], false, CaseChange.None, []⟩
    125 123 rfl rfl rfl (Or.inl ⟨rfl, rfl⟩)

lemma hexDigitVal_le15 (a : Nat) : hexDigitVal a ≤ 15 := by
  unfold hexDigitVal
  repeat' split
  all_goals omega

lemma hexFold_lt (s : QStr) : ∀ v : Nat, hexFold v s < 16 ^ s.length * (v + 1) := by
  induction s with
  | nil => intro v; simp [hexFold]
  | cons a s ih =>
    intro v
    have h1 := ih (16 * v + hexDigitVal a)
    have h2 := hexDigitVal_le15 a
    have h3 : (16 : Nat) ^ s.length * (16 * v + hexDigitVal a + 1) ≤
        16 ^ s.length * (16 * (v + 1)) := Nat.mul_le_mul_left _ (by omega)
    calc hexFold v (a :: s) = hexFold (16 * v + hexDigitVal a) s := rfl
    _ < 16 ^ s.length * (16 * v + hexDigitVal a + 1) := h1
    _ ≤ 16 ^ s.length * (16 * (v + 1)) := h3
    _ = 16 ^ (a :: s).length * (v + 1) := by
        simp only [List.length_cons, pow_succ]; ring

lemma hexToUInt_lt (s : QStr) : hexToUInt s < 16 ^ s.length := by
  have h := hexFold_lt s 0
  simpa [hexToUInt] using h

/-- C6: the braced hex escape.  IsValidHex6 accepts exactly the all-hex
strings of length 2, 4 or 6 whose length-6 instances start with the digit 0
or the two digits 10; at the closing brace a valid length-2 or length-4
string appends the single unit with that value, a valid length-6 string
appends the UTF-16 form of plane times 65536 plus remainder; every length-6
decoded value is at most 1114111 (0x10FFFF); an invalid digit string at the
closer emits the raw accumulated sequence literally (and an unterminated
brace does so at end of input, as the concrete runs show). -/
theorem C6_braced_hex :
    (∀ s : QStr, IsValidHex6 s = true ↔
      ((s.length = 2 ∨ s.length = 4 ∨ s.length = 6) ∧ s.all is_hex = true ∧
        (s.length = 6 → s.take 1 = [48] ∨ s.take 2 = [49, 48]))) ∧
    (∀ (sre : SPCRE) (text : QStr) (cgo : List (Int × Int)) (st : BState),
      st.in_control = true → st.control_char = some 120 → st.in_hex6 = true →
      IsValidHex6 st.control_x6_hex = true →
        (step sre text cgo st 125).in_control = false ∧
        (step sre text cgo st 125).in_hex6 = false ∧
        (step sre text cgo st 125).finalText =
          st.finalText ++
            (processTextSegement st.caseChangeState
              (if st.control_x6_hex.length = 2 ∨ st.control_x6_hex.length = 4 then
                [hexToUInt st.control_x6_hex]
              else
                fromUcs4 (65536 * hexToUInt (st.control_x6_hex.take 2) +
                  hexToUInt (st.control_x6_hex.drop (st.control_x6_hex.length - 4))))).1) ∧
    (∀ s : QStr, IsValidHex6 s = true → s.length = 6 →
      65536 * hexToUInt (s.take 2) + hexToUInt (s.drop (s.length - 4)) ≤ 1114111) ∧
    (∀ (sre : SPCRE) (text : QStr) (cgo : List (Int × Int)) (st : BState),
      st.in_control = true → st.control_char = some 120 → st.in_hex6 = true →
      IsValidHex6 st.control_x6_hex = false →
        (step sre text cgo st 125).in_control = false ∧
        (step sre text cgo st 125).finalText =
          st.finalText ++
            (processTextSegement st.caseChangeState (st.invalid_control ++ [125])).1) ∧
    BuildReplacementText sre0 [] [] [92, 120, 123, 52, 49, 125] = (true, [65]) ∧
    BuildReplacementText sre0 [] [] [92, 120, 123, 49, 48, 70, 70, 70, 68, 125] =
      (true, [56319, 57341]) ∧
    BuildReplacementText sre0 [] [] [92, 120, 123, 49, 50, 51, 125] =
      (true, [92, 120, 123, 49, 50, 51, 125]) ∧
    BuildReplacementText sre0 [] [] [92, 120, 123, 52, 49] =
      (true, [92, 120, 123, 52, 49]) := by
  have hA : ∀ s : QStr, IsValidHex6 s = true ↔
      ((s.length = 2 ∨ s.length = 4 ∨ s.length = 6) ∧ s.all is_hex = true ∧
        (s.length = 6 → s.take 1 = [48] ∨ s.take 2 = [49, 48])) := by
    intro s
    constructor
    · intro h
      by_cases hL : s.length < 2 ∨ s.length = 3 ∨ s.length = 5 ∨ s.length > 6
      · simp [IsValidHex6, hL] at h
      · by_cases hAx : s.all is_hex = true
        · by_cases h24 : s.length = 2 ∨ s.length = 4
          · exact ⟨by omega, hAx, by omega⟩
          · have h6 : s.length = 6 := by omega
            simp [IsValidHex6, hL, hAx, h24, h6] at h
            exact ⟨by omega, hAx, fun _ => h⟩
        · simp [IsValidHex6, hL, hAx] at h
    · rintro ⟨hlen, hAx, h6⟩
      have hL : ¬ (s.length < 2 ∨ s.length = 3 ∨ s.length = 5 ∨ s.length > 6) := by omega
      by_cases h24 : s.length = 2 ∨ s.length = 4
      · simp [IsValidHex6, hL, hAx, h24]
      · have h6' : s.length = 6 := by omega
        simp [IsValidHex6, hL, hAx, h24, h6', h6 h6']
  refine ⟨hA, ?_, ?_, ?_, by decide, by decide, by decide, by decide⟩
  · intro sre text cgo st h1 h2 h3 hv
    cases st with
    | mk ic cc bb bn inv xh x6 h6 cs ft =>
      simp only at h1 h2 h3
      subst h1; subst h2; subst h3
      refine ⟨?_, ?_, ?_⟩ <;>
        · simp only [step, stepControlStart, stepNamedBackref, stepHex, hv]
          repeat' split
          all_goals simp_all
  · intro s hv h6
    have hch := (hA s).mp hv
    obtain ⟨_, hall, hpl⟩ := hch
    have hpl6 := hpl h6
    rcases s with _ | ⟨a, s1⟩
    · simp at h6
    rcases s1 with _ | ⟨b, s4⟩
    · simp at h6
    have h4 : s4.length = 4 := by simp at h6; omega
    have hd2 : (a :: b :: s4).length - 4 = 2 := by simp [h4]
    have htake : (a :: b :: s4).take 2 = [a, b] := rfl
    have hdrop : (a :: b :: s4).drop 2 = s4 := rfl
    rw [hd2, htake, hdrop]
    have hab : hexToUInt [a, b] = 16 * hexDigitVal a + hexDigitVal b := by
      simp [hexToUInt, hexFold]
    have hrem : hexToUInt s4 < 65536 := by
      have := hexToUInt_lt s4
      rw [h4] at this
      norm_num at this
      exact this
    have hbv := hexDigitVal_le15 b
    rcases hpl6 with hp | hp
    · have ha : a = 48 := by
        simp only [List.take, List.cons.injEq] at hp
        exact hp.1
      subst ha
      have h48 : hexDigitVal 48 = 0 := rfl
      rw [hab, h48]
      omega
    · have hab' : a = 49 ∧ b = 48 := by
        simp only [List.take, List.cons.injEq] at hp
        exact ⟨hp.1, hp.2.1⟩
      obtain ⟨rfl, rfl⟩ := hab'
      have h16 : hexToUInt [49, 48] = 16 := by decide
      rw [h16]
      omega
  · intro sre text cgo st h1 h2 h3 hv
    cases st with
    | mk ic cc bb bn inv xh x6 h6 cs ft =>
      simp only at h1 h2 h3
      subst h1; subst h2; subst h3
      clear hA
      have h125 : is_hex 125 = false := by decide
      refine ⟨?_, ?_⟩ <;>
        · simp only [step, stepControlStart, stepNamedBackref, stepHex, hv, h125]
          repeat' split
          all_goals simp_all

/-- C6 witness: the bound at the concrete valid length-6 digit string 10FFFD
(units 49 48 70 70 70 68). -/
theorem C6_braced_hex_witness :
    65536 * hexToUInt (([49, 48, 70, 70, 70, 68] : QStr).take 2) +
      hexToUInt (([49, 48, 70, 70, 70, 68] : QStr).drop
        (([49, 48, 70, 70, 70, 68] : QStr).length - 4)) ≤ 1114111 :=
  C6_braced_hex.2.2.1 [49, 48, 70, 70, 70, 68] (by decide) (by decide)

/-- C7 counterexample: in the fixed hex form, a brace that does not
immediately follow the x does not abort to literal emission; after
backslash x 4 the brace switches to the braced form, so the pattern
backslash x 4 brace 4 1 close-brace decodes to the unit 65 (A) instead of
being passed through as the raw seven units the claim predicts. -/
theorem C7_counterexample :
    (BuildReplacementText sre0 [] [] [92, 120, 52, 123, 52, 49, 125]).2 = [65] ∧
    ¬ (BuildReplacementText sre0 [] [] [92, 120, 52, 123, 52, 49, 125]).2 =
        [92, 120, 52, 123, 52, 49, 125] := by decide

/-- C7 (amended): in the fixed hex form exactly 2 hex digits are collected
and decoded as one code-unit segment, and a non-hex character other than an
opening brace aborts to literal emission of the raw accumulated sequence;
an opening brace, however — at any point while not yet in the braced form,
even when it does not immediately follow the x — switches the scan to the
braced form (leaving the already collected fixed-form digits undecoded in
the fixed-form buffer) instead of aborting. -/
theorem C7_fixed_hex :
    (∀ (sre : SPCRE) (text : QStr) (cgo : List (Int × Int)) (st : BState) (c : Nat),
      st.in_control = true → st.control_char = some 120 → st.in_hex6 = false →
      is_hex c = false → c ≠ 123 →
        (step sre text cgo st c).in_control = false ∧
        (step sre text cgo st c).finalText =
          st.finalText ++
            (processTextSegement st.caseChangeState (st.invalid_control ++ [c])).1) ∧
    (∀ (sre : SPCRE) (text : QStr) (cgo : List (Int × Int)) (st : BState),
      st.in_control = true → st.control_char = some 120 → st.in_hex6 = false →
        (step sre text cgo st 123).in_hex6 = true ∧
        (step sre text cgo st 123).in_control = true ∧
        (step sre text cgo st 123).control_x_hex = st.control_x_hex ∧
        (step sre text cgo st 123).finalText = st.finalText) ∧
    (∀ (sre : SPCRE) (text : QStr) (cgo : List (Int × Int)) (st : BState) (c : Nat),
      st.in_control = true → st.control_char = some 120 → st.in_hex6 = false →
      is_hex c = true →
        ((st.control_x_hex ++ [c]).length = 2 →
          (step sre text cgo st c).in_control = false ∧
          (step sre text cgo st c).finalText =
            st.finalText ++
              (processTextSegement st.caseChangeState [hexToUInt (st.control_x_hex ++ [c])]).1) ∧
        ((st.control_x_hex ++ [c]).length ≠ 2 →
          (step sre text cgo st c).in_control = true ∧
          (step sre text cgo st c).control_x_hex = st.control_x_hex ++ [c] ∧
          (step sre text cgo st c).finalText = st.finalText)) ∧
    BuildReplacementText sre0 [] [] [92, 120, 52, 49] = (true, [65]) := by
  refine ⟨fun sre text cgo st c h1 h2 h3 h4 h5 => ?_,
    fun sre text cgo st h1 h2 h3 => ?_,
    fun sre text cgo st c h1 h2 h3 h4 => ?_, by decide⟩
  · cases st with
    | mk ic cc bb bn inv xh x6 h6 cs ft =>
      simp only at h1 h2 h3
      subst h1; subst h2; subst h3
      simp [step, stepControlStart, stepNamedBackref, stepHex, h4, h5]
  · cases st with
    | mk ic cc bb bn inv xh x6 h6 cs ft =>
      simp only at h1 h2 h3
      subst h1; subst h2; subst h3
      exact ⟨rfl, rfl, rfl, rfl⟩
  · cases st with
    | mk ic cc bb bn inv xh x6 h6 cs ft =>
      simp only at h1 h2 h3
      subst h1; subst h2; subst h3
      have h5 : ¬ (c = 123) := by
        intro hc
        subst hc
        exact absurd h4 (by decide)
      constructor
      · intro hlen
        simp only [step, stepControlStart, stepNamedBackref, stepHex]
        simp_all
      · intro hlen
        simp only [step, stepControlStart, stepNamedBackref, stepHex]
        simp_all

/-- C7 witness: the abort at the concrete non-hex unit 90 (Z) after
backslash x with one digit collected. -/
theorem C7_fixed_hex_witness :
    (step sre0 [] [] ⟨true, some 120, none, [], [92, 120, 52], [52], [], false, CaseChange.None, []⟩
        90).in_control = false ∧
    (step sre0 [] [] ⟨true, some 120, none, [], [92, 120, 52], [52], [], false, CaseChange.None, []⟩
        90).finalText = [92, 120, 52, 90] :=
  C7_fixed_hex.1 sre0 [] []
    ⟨true, some 120, none, [], [92, 120, 52], [52], [], false, CaseChange.None, []⟩
    90 rfl rfl rfl (by decide) (by decide)

lemma step_enter (sre : SPCRE) (text : QStr) (cgo : List (Int × Int)) (st : BState) (c : Nat)
    (h : st.in_control = false) (h2 : (step sre text cgo st c).in_control = true) :
    c = 92 ∧ step sre text cgo st c =
      { st with invalid_control := [92], control_char := none, control_x_hex := [],
                control_x6_hex := [], in_hex6 := false, in_control := true } := by
  cases st with
  | mk ic cc bb bn inv xh x6 h6 cs ft =>
    simp only at h
    subst h
    by_cases hc : c = 92
    · subst hc
      exact ⟨rfl, rfl⟩
    · exfalso
      simp [step, stepControlStart, stepNamedBackref, stepHex, hc] at h2

lemma step_stay (sre : SPCRE) (text : QStr) (cgo : List (Int × Int)) (st : BState) (c : Nat)
    (h : st.in_control = true) (h2 : (step sre text cgo st c).in_control = true) :
    (step sre text cgo st c).invalid_control = st.invalid_control ++ [c] ∧
    (step sre text cgo st c).finalText = st.finalText := by
  cases st with
  | mk ic cc bb bn inv xh x6 h6 cs ft =>
    simp only at h
    subst h
    cases cc with
    | none =>
      by_cases hd : qIsDigit c = true
      · exfalso
        unfold step at h2
        norm_num at h2
        unfold stepControlStart at h2
        simp only [hd, if_true] at h2
        split at h2 <;> simp at h2
      · by_cases h97 : c = 97
        · exfalso; subst h97; exact absurd h2 (by simp [step, stepControlStart, stepNamedBackref, stepHex, hd])
        · by_cases h98 : c = 98
          · exfalso; subst h98; exact absurd h2 (by simp [step, stepControlStart, stepNamedBackref, stepHex, hd])
          · by_cases h102 : c = 102
            · exfalso; subst h102; exact absurd h2 (by simp [step, stepControlStart, stepNamedBackref, stepHex, hd])
            · by_cases h110 : c = 110
              · exfalso; subst h110; exact absurd h2 (by simp [step, stepControlStart, stepNamedBackref, stepHex, hd])
              · by_cases h114 : c = 114
                · exfalso; subst h114; exact absurd h2 (by simp [step, stepControlStart, stepNamedBackref, stepHex, hd])
                · by_cases h116 : c = 116
                  · exfalso; subst h116; exact absurd h2 (by simp [step, stepControlStart, stepNamedBackref, stepHex, hd])
                  · by_cases h118 : c = 118
                    · exfalso; subst h118; exact absurd h2 (by simp [step, stepControlStart, stepNamedBackref, stepHex, hd])
                    · by_cases h92 : c = 92
                      · exfalso; subst h92; exact absurd h2 (by simp [step, stepControlStart, stepNamedBackref, stepHex, hd])
                      · by_cases h69 : c = 69
                        · exfalso; subst h69; exact absurd h2 (by simp [step, stepControlStart, stepNamedBackref, stepHex, hd])
                        · by_cases h103 : c = 103
                          · subst h103; exact ⟨rfl, rfl⟩
                          · by_cases h108 : c = 108
                            · exfalso; subst h108; exact absurd h2 (by simp [step, stepControlStart, stepNamedBackref, stepHex, hd])
                            · by_cases h76 : c = 76
                              · exfalso; subst h76; exact absurd h2 (by simp [step, stepControlStart, stepNamedBackref, stepHex, hd])
                              · by_cases h117 : c = 117
                                · exfalso; subst h117; exact absurd h2 (by simp [step, stepControlStart, stepNamedBackref, stepHex, hd])
                                · by_cases h85 : c = 85
                                  · exfalso; subst h85; exact absurd h2 (by simp [step, stepControlStart, stepNamedBackref, stepHex, hd])
                                  · constructor <;>
                                      simp [step, stepControlStart, stepNamedBackref, stepHex, hd, h97, h98, h102, h110, h114, h116,
                                        h118, h92, h69, h103, h108, h76, h117, h85]
    | some v =>
      by_cases hg : v = 103
      · subst hg
        cases bb with
        | none =>
          by_cases hbr : c = 123 ∨ c = 60
          · rcases hbr with rfl | rfl
            · exact ⟨rfl, rfl⟩
            · exact ⟨rfl, rfl⟩
          · exfalso
            exact absurd h2 (by simp [step, stepControlStart, stepNamedBackref, stepHex, hbr])
        | some b =>
          by_cases hcl : (c = 125 ∧ b = 123) ∨ (c = 62 ∧ b = 60)
          · exfalso
            unfold step at h2
            norm_num at h2
            unfold stepNamedBackref at h2
            simp only [if_pos hcl] at h2
            repeat' split at h2
            all_goals simp at h2
          · constructor <;>
              · unfold step stepNamedBackref
                simp [hcl]
      · by_cases hx : v = 120
        · subst hx
          cases h6 with
          | false =>
            by_cases h123 : c = 123
            · subst h123; exact ⟨rfl, rfl⟩
            · by_cases hhex : is_hex c = true
              · by_cases hlen : (xh ++ [c]).length = 2
                · exfalso
                  unfold step stepHex at h2
                  simp [h123, hhex, hlen] at h2
                · have hlen1 : ¬ (xh.length = 1) := by
                    simp only [List.length_append, List.length_cons, List.length_nil] at hlen
                    omega
                  constructor <;>
                    · unfold step stepHex
                      simp [h123, hhex, hlen1]
              · exfalso
                unfold step stepHex at h2
                simp [h123, hhex] at h2
          | true =>
            by_cases hcl : c = 125 ∧ IsValidHex6 x6 = true
            · exfalso
              obtain ⟨rfl, hv⟩ := hcl
              unfold step stepHex at h2
              simp only [hv] at h2
              have h125 : is_hex 125 = false := by decide
              repeat' split at h2
              all_goals simp_all
            · by_cases hhex : is_hex c = true
              · constructor <;>
                  · unfold step stepHex
                    simp [hcl, hhex]
              · exfalso
                unfold step stepHex at h2
                simp [hcl, hhex] at h2
        · exfalso
          exact absurd h2 (by simp [step, stepControlStart, stepNamedBackref, stepHex, hg, hx])

lemma scan_control_invariant (sre : SPCRE) (text : QStr) (cgo : List (Int × Int)) :
    ∀ (cs : QStr) (st : BState), (scanList sre text cgo st cs).in_control = true →
      (st.in_control = true ∧
        (scanList sre text cgo st cs).invalid_control = st.invalid_control ++ cs ∧
        (scanList sre text cgo st cs).finalText = st.finalText) ∨
      (∃ a b, cs = a ++ 92 :: b ∧
        (scanList sre text cgo st a).in_control = false ∧
        (scanList sre text cgo st cs).invalid_control = 92 :: b ∧
        (scanList sre text cgo st cs).finalText = (scanList sre text cgo st a).finalText) := by
  intro cs
  induction cs with
  | nil =>
    intro st h
    left
    exact ⟨h, by simp [scanList], rfl⟩
  | cons c cs ih =>
    intro st h
    have hstep : scanList sre text cgo st (c :: cs) =
        scanList sre text cgo (step sre text cgo st c) cs := rfl
    rw [hstep] at h ⊢
    rcases ih (step sre text cgo st c) h with ⟨hin, hinv, hft⟩ | ⟨a, b, hab, hnc, hinv, hft⟩
    · by_cases hst : st.in_control = true
      · obtain ⟨hi2, hf2⟩ := step_stay sre text cgo st c hst hin
        left
        refine ⟨hst, ?_, ?_⟩
        · rw [hinv, hi2]
          simp
        · rw [hft, hf2]
      · have hst' : st.in_control = false := by
          cases hb : st.in_control
          · rfl
          · exact absurd hb hst
        obtain ⟨hc92, hse⟩ := step_enter sre text cgo st c hst' hin
        subst hc92
        right
        refine ⟨[], cs, rfl, ?_, ?_, ?_⟩
        · simpa [scanList] using hst'
        · rw [hinv, hse]
          simp
        · rw [hft, hse]
          simp [scanList]
    · right
      refine ⟨c :: a, b, by rw [hab]; rfl, ?_, hinv, ?_⟩
      · simpa [scanList] using hnc
      · rw [hft]
        rfl

/-- C9: reaching end of input while the scanner is still in a control emits
the entire invalid buffer — every raw unit from the triggering backslash
(the last backslash met in Literal) to the end of the pattern — as one
literal segment, with nothing else emitted after the point the control
started; the unterminated pattern backslash g brace y e a r comes back
verbatim. -/
theorem C9_unterminated_control :
    (∀ (sre : SPCRE) (text : QStr) (cgo : List (Int × Int)) (p : QStr),
      sre.isValid = true → p.contains 92 = true →
      (scanList sre text cgo initState p).in_control = true →
      ∃ a b, p = a ++ 92 :: b ∧
        (scanList sre text cgo initState a).in_control = false ∧
        (scanList sre text cgo initState p).invalid_control = 92 :: b ∧
        (BuildReplacementText sre text cgo p).2 =
          (scanList sre text cgo initState a).finalText ++
            (processTextSegement (scanList sre text cgo initState p).caseChangeState
              (92 :: b)).1) ∧
    BuildReplacementText sre0 [] [] [92, 103, 123, 121, 101, 97, 114] =
      (true, [92, 103, 123, 121, 101, 97, 114]) := by
  refine ⟨fun sre text cgo p h1 h2 h3 => ?_, by decide⟩
  rcases scan_control_invariant sre text cgo p initState h3 with ⟨hin, _, _⟩ |
    ⟨a, b, hab, hnc, hinv, hft⟩
  · exact absurd hin (by decide)
  · refine ⟨a, b, hab, hnc, hinv, ?_⟩
    have e : (BuildReplacementText sre text cgo p).2 =
        (if (scanList sre text cgo initState p).in_control then
          accumulateReplcementText (scanList sre text cgo initState p)
            (scanList sre text cgo initState p).invalid_control
        else scanList sre text cgo initState p).finalText := by
      unfold BuildReplacementText
      rw [if_neg (by simp [h1]), if_neg (by simp_all)]
    rw [e, if_pos h3]
    simp [hft, hinv]

/-- C9 witness: the unterminated named backreference backslash g brace y e a
r, flushed whole at end of input. -/
theorem C9_unterminated_control_witness :
    ∃ a b, ([92, 103, 123, 121, 101, 97, 114] : QStr) = a ++ 92 :: b ∧
      (scanList sre0 [] [] initState a).in_control = false ∧
      (scanList sre0 [] [] initState [92, 103, 123, 121, 101, 97, 114]).invalid_control =
        92 :: b ∧
      (BuildReplacementText sre0 [] [] [92, 103, 123, 121, 101, 97, 114]).2 =
        (scanList sre0 [] [] initState a).finalText ++
          (processTextSegement
            (scanList sre0 [] [] initState [92, 103, 123, 121, 101, 97, 114]).caseChangeState
            (92 :: b)).1 :=
  C9_unterminated_control.1 sre0 [] [] [92, 103, 123, 121, 101, 97, 114] rfl (by decide)
    (by decide)
